import Mathlib

/-!
Verification of the OEIS-bot retrieval-and-normalization pipeline.

The development shallowly embeds the Rust sources:
  * `src/oeis.rs`  — keyword taxonomy, wire record (`OeisEntry`), decoder
    (`From<OeisEntry> for OeisSequence`, `parse_data`, `parse_keywords`,
    `join_lines`);
  * `src/fetch.rs` — `fetch` (lookup by identifier) and `fetch_random`
    (rejection-sampling loop);
  * `src/mastodon.rs` — `format_status`.

Strings are handled at the `List Char` level where parsing is involved;
`String` wrappers keep the signatures of the source.  The source decoder
aborts (`expect`) on a malformed term or an unknown keyword; the abort is
modelled as a typed failure (`DecodeError`) carrying the offending segment,
and likewise the `panic!` on a fatal fetch error is modelled as a terminal
`fatal` outcome of the sampling loop.  Network I/O is modelled by passing
the lookup outcome (`LookupResult`) as an explicit argument.
-/

deriving instance DecidableEq for Except

namespace OeisBot

/-- An OEIS keyword tag (`enum Keyword` in `src/oeis.rs`). -/
inductive Keyword where
  | base
  | bref
  | changed
  | cofr
  | cons
  | core
  | dead
  | dumb
  | dupe
  | easy
  | eigen
  | fini
  | frac
  | full
  | hard
  | hear
  | less
  | look
  | more
  | mult
  | new
  | nice
  | nonn
  | obsc
  | probation
  | sign
  | tabf
  | tabl
  | uned
  | unkn
  | walk
  | word
  deriving DecidableEq, Repr

/-- `Keyword::as_str` from `src/oeis.rs`: the canonical lowercase string form. -/
def Keyword.as_str : Keyword → String
  | .base => "base"
  | .bref => "bref"
  | .changed => "changed"
  | .cofr => "cofr"
  | .cons => "cons"
  | .core => "core"
  | .dead => "dead"
  | .dumb => "dumb"
  | .dupe => "dupe"
  | .easy => "easy"
  | .eigen => "eigen"
  | .fini => "fini"
  | .frac => "frac"
  | .full => "full"
  | .hard => "hard"
  | .hear => "hear"
  | .less => "less"
  | .look => "look"
  | .more => "more"
  | .mult => "mult"
  | .new => "new"
  | .nice => "nice"
  | .nonn => "nonn"
  | .obsc => "obsc"
  | .probation => "probation"
  | .sign => "sign"
  | .tabf => "tabf"
  | .tabl => "tabl"
  | .uned => "uned"
  | .unkn => "unkn"
  | .walk => "walk"
  | .word => "word"

/-- `FromStr for Keyword` from `src/oeis.rs`.  The error payload is the
unrecognized string itself (`ParseKeywordError(other.to_owned())`). -/
def Keyword.from_str (s : String) : Except String Keyword :=
  if s = "base" then .ok .base
  else if s = "bref" then .ok .bref
  else if s = "changed" then .ok .changed
  else if s = "cofr" then .ok .cofr
  else if s = "cons" then .ok .cons
  else if s = "core" then .ok .core
  else if s = "dead" then .ok .dead
  else if s = "dumb" then .ok .dumb
  else if s = "dupe" then .ok .dupe
  else if s = "easy" then .ok .easy
  else if s = "eigen" then .ok .eigen
  else if s = "fini" then .ok .fini
  else if s = "frac" then .ok .frac
  else if s = "full" then .ok .full
  else if s = "hard" then .ok .hard
  else if s = "hear" then .ok .hear
  else if s = "less" then .ok .less
  else if s = "look" then .ok .look
  else if s = "more" then .ok .more
  else if s = "mult" then .ok .mult
  else if s = "new" then .ok .new
  else if s = "nice" then .ok .nice
  else if s = "nonn" then .ok .nonn
  else if s = "obsc" then .ok .obsc
  else if s = "probation" then .ok .probation
  else if s = "sign" then .ok .sign
  else if s = "tabf" then .ok .tabf
  else if s = "tabl" then .ok .tabl
  else if s = "uned" then .ok .uned
  else if s = "unkn" then .ok .unkn
  else if s = "walk" then .ok .walk
  else if s = "word" then .ok .word
  else .error s

/-- The typed decode failure.  The source aborts via `expect` inside
`parse_data` / `parse_keywords`; each abort point has the offending segment
in hand, and the spec names the two failure modes `InvalidTerm` and
`UnknownKeyword`. -/
inductive DecodeError where
  | invalidTerm : String → DecodeError
  | unknownKeyword : String → DecodeError
  deriving DecidableEq, Repr

/-- Rust `str::split(',')`: splits on every comma, keeping empty segments
(between adjacent commas and at either end); the empty input yields one
empty segment. -/
def splitChars : List Char → List (List Char)
  | [] => [[]]
  | c :: rest =>
    if c = ',' then [] :: splitChars rest
    else
      match splitChars rest with
      | [] => [[c]]
      | g :: gs => (c :: g) :: gs

/-- Numeric value of an ASCII digit character. -/
def digitVal (c : Char) : Nat := c.toNat - '0'.toNat

/-- Value of a big-endian list of decimal digit characters. -/
def digitsVal (cs : List Char) : Nat :=
  cs.foldl (fun acc c => acc * 10 + digitVal c) 0

/-- Parse a non-empty all-digit character list as a natural number. -/
def parseNatDigits (cs : List Char) : Option Nat :=
  if cs.isEmpty then none
  else if cs.all Char.isDigit then some (digitsVal cs)
  else none

/-- `BigInt::from_str` (decimal): an optional single leading `+`/`-` sign
followed by at least one decimal digit. -/
def parseBigIntChars : List Char → Option Int
  | [] => none
  | c :: rest =>
    if c = '-' then (parseNatDigits rest).map (fun n => -(Int.ofNat n))
    else if c = '+' then (parseNatDigits rest).map Int.ofNat
    else (parseNatDigits (c :: rest)).map Int.ofNat

/-- Rust `Iterator::collect::<Result<Vec<_>, _>>()`: succeed with the list of
values if every element is `ok`, otherwise fail with the first error. -/
def collectResults {ε α : Type} : List (Except ε α) → Except ε (List α)
  | [] => .ok []
  | .error e :: _ => .error e
  | .ok a :: rest => (collectResults rest).map (fun l => a :: l)

/-- The non-empty comma-separated segments of a string:
`s.split(',').filter(|s| !s.is_empty())`. -/
def segments (s : String) : List (List Char) :=
  (splitChars s.data).filter (fun t => !t.isEmpty)

/-- `parse_data` from `src/oeis.rs`: split the terms field on `,`, drop empty
segments, parse each remaining segment as an arbitrary-precision integer.
The source's `expect("invalid integer in OEIS data field")` abort is the
`invalidTerm` failure. -/
def parse_data (s : String) : Except DecodeError (List Int) :=
  collectResults ((segments s).map (fun t =>
    match parseBigIntChars t with
    | some n => .ok n
    | none => .error (DecodeError.invalidTerm (String.mk t))))

/-- `parse_keywords` from `src/oeis.rs`: split the keyword field on `,`, drop
empty segments, map each remaining segment through `Keyword::from_str`.  The
source's `expect("unknown OEIS keyword")` abort is the `unknownKeyword`
failure, carrying the segment (`ParseKeywordError`'s payload). -/
def parse_keywords (s : String) : Except DecodeError (List Keyword) :=
  collectResults ((segments s).map (fun t =>
    match Keyword.from_str (String.mk t) with
    | .ok k => .ok k
    | .error msg => .error (DecodeError.unknownKeyword msg)))

/-- `join_lines` from `src/oeis.rs`: `v.join("\n")`. -/
def join_lines (v : List String) : String :=
  String.intercalate "\n" v

/-- Raw JSON wire record (`struct OeisEntry` in `src/oeis.rs`). -/
structure OeisEntry where
  number : Nat
  id : Option String
  data : String
  name : String
  comment : List String
  reference : List String
  link : List String
  formula : List String
  «example» : List String
  maple : List String
  mathematica : List String
  program : List String
  xref : List String
  keyword : String
  offset : String
  author : String
  ext : List String
  references : Nat
  revision : Nat
  time : String
  created : String
  deriving DecidableEq, Repr

/-- Domain model (`struct OeisSequence` in `src/oeis.rs`). -/
structure OeisSequence where
  number : Nat
  id : Option String
  data : List Int
  name : String
  comment : String
  reference : String
  link : String
  formula : String
  «example» : String
  maple : String
  mathematica : String
  program : String
  xref : String
  keyword : List Keyword
  offset : String
  author : String
  ext : String
  references : Nat
  revision : Nat
  time : String
  created : String
  deriving DecidableEq, Repr

/-- `impl From<OeisEntry> for OeisSequence` from `src/oeis.rs`.  The struct
expression evaluates its fields in source order, so `parse_data` runs (and
can fail) before `parse_keywords`; all other fields are copied or moved
unchanged. -/
def OeisSequence.fromEntry (e : OeisEntry) : Except DecodeError OeisSequence := do
  let data ← parse_data e.data
  let keyword ← parse_keywords e.keyword
  return { number := e.number
           id := e.id
           data := data
           name := e.name
           comment := join_lines e.comment
           reference := join_lines e.reference
           link := join_lines e.link
           formula := join_lines e.formula
           «example» := join_lines e.example
           maple := join_lines e.maple
           mathematica := join_lines e.mathematica
           program := join_lines e.program
           xref := join_lines e.xref
           keyword := keyword
           offset := e.offset
           author := e.author
           ext := join_lines e.ext
           references := e.references
           revision := e.revision
           time := e.time
           created := e.created }

/-! ## Resolver (`src/fetch.rs`) -/

/-- `enum FetchError` from `src/error.rs`.  The `ureq::Error` and
`serde_json::Error` payloads are opaque; they are modelled as strings. -/
inductive FetchError where
  | http : String → FetchError
  | parse : String → FetchError
  | notFound : Nat → FetchError
  deriving DecidableEq, Repr

/-- `MAX_SEQUENCE_ID` from `src/fetch.rs`. -/
def MAX_SEQUENCE_ID : Nat := 380000

/-- `REJECTED_KEYWORDS` from `src/fetch.rs`. -/
def REJECTED_KEYWORDS : List Keyword :=
  [.dead, .dumb, .dupe, .less, .obsc, .probation, .uned]

/-- The outcome of the remote round trip for one identifier, passed
explicitly in place of the network:
  * `transportError` — `ureq::get(...).call()` failed (connection, timeout,
    non-success status);
  * `invalidBody` — the response body failed the JSON read
    (`read_json()`, whose error is a `ureq::Error`);
  * `records` — the body parsed as a list of wire records. -/
inductive LookupResult where
  | transportError : String → LookupResult
  | invalidBody : String → LookupResult
  | records : List OeisEntry → LookupResult
  deriving DecidableEq, Repr

/-- Result of one `fetch` call.  `decodeAbort` models the process abort the
source performs (via `expect`) when `OeisSequence::from` hits a malformed
term or keyword; it is neither an `Ok` value nor a `FetchError`. -/
inductive FetchOutcome where
  | ok : OeisSequence → FetchOutcome
  | err : FetchError → FetchOutcome
  | decodeAbort : DecodeError → FetchOutcome
  deriving DecidableEq, Repr

/-- `fetch` from `src/fetch.rs`: both the `call()?` and the `read_json()?`
failures are `ureq::Error`s converted by `From<ureq::Error>` into
`FetchError::Http`; an empty record list is `FetchError::NotFound(id)`;
otherwise the first record is decoded via `OeisSequence::from`. -/
def fetch (id : Nat) (r : LookupResult) : FetchOutcome :=
  match r with
  | .transportError msg => .err (.http msg)
  | .invalidBody msg => .err (.http msg)
  | .records entries =>
    match entries with
    | [] => .err (.notFound id)
    | e :: _ =>
      match OeisSequence.fromEntry e with
      | .ok s => .ok s
      | .error d => .decodeAbort d

/-- The keyword-rejection test of the sampling loop:
`seq.keyword.iter().any(|kw| REJECTED_KEYWORDS.contains(kw))`. -/
def isRejected (seq : OeisSequence) : Bool :=
  seq.keyword.any (fun kw => REJECTED_KEYWORDS.contains kw)

/-- Terminal state of the sampling loop.  `fatal` models the source's
`panic!("{e}")` on a non-`NotFound` fetch error, `decodeAbort` the decoder's
abort, and `outOfDraws` the case where the modelled draw stream is
exhausted (the real loop draws forever). -/
inductive RandomOutcome where
  | accepted : OeisSequence → RandomOutcome
  | fatal : FetchError → RandomOutcome
  | decodeAbort : DecodeError → RandomOutcome
  | outOfDraws : RandomOutcome
  deriving DecidableEq, Repr

/-- `fetch_random` from `src/fetch.rs`, run against an explicit stream of
draws: each element is the identifier produced by the RNG together with the
lookup outcome the service returns for it.  `NotFound` and a rejected
keyword set both `continue` the loop; any other error is terminal. -/
def fetch_random : List (Nat × LookupResult) → RandomOutcome
  | [] => .outOfDraws
  | d :: rest =>
    match fetch d.1 d.2 with
    | .ok seq => if isRejected seq then fetch_random rest else .accepted seq
    | .err (FetchError.notFound _) => fetch_random rest
    | .err e => .fatal e
    | .decodeAbort d => .decodeAbort d

/-! ## Formatting (`src/mastodon.rs`) -/

/-- The decimal digit characters of `n`, least significant first. -/
def natDigitsRev (n : Nat) : List Char :=
  if h : n < 10 then [Nat.digitChar n]
  else Nat.digitChar (n % 10) :: natDigitsRev (n / 10)
  termination_by n
  decreasing_by exact Nat.div_lt_self (by omega) (by omega)

/-- The decimal digit characters of `n`, most significant first: the
rendering `u64`/`BigUint` `Display` produces. -/
def natDigits (n : Nat) : List Char := (natDigitsRev n).reverse

/-- `Display` for an unsigned integer. -/
def natToString (n : Nat) : String := String.mk (natDigits n)

/-- `Display` for `BigInt`: a `-` sign for negative values, then the decimal
digits of the magnitude. -/
def intToString (n : Int) : String :=
  if n < 0 then String.mk ('-' :: natDigits n.natAbs)
  else String.mk (natDigits n.toNat)

/-- Rust `format!("{:06}", n)`: left-pad the decimal rendering with `0`s to
width 6 (renderings of 6 or more digits are unchanged). -/
def pad6 (n : Nat) : String :=
  String.mk (List.replicate (6 - (natDigits n).length) '0' ++ natDigits n)

/-- `format_status` from `src/mastodon.rs`. -/
def format_status (seq : OeisSequence) : String :=
  "OEIS sequence A" ++ pad6 seq.number ++ "\n" ++ seq.name ++ "\n\n"
    ++ String.intercalate ", " (seq.data.map intToString)
    ++ "\n\nhttps://oeis.org/A" ++ natToString seq.number

/-! ## Auxiliary definitions for the proofs -/

/-- The value of a list of decimal digit characters taken least significant
first; the structural companion of `digitsVal`. -/
def valRevDigits : List Char → Nat
  | [] => 0
  | c :: cs => digitVal c + 10 * valRevDigits cs

/-- Comma-joining of character lists: the character-level form of joining
strings with `","`. -/
def joinComma : List (List Char) → List Char
  | [] => []
  | [t] => t
  | t :: rest => t ++ ',' :: joinComma rest

/-! ## Concrete records used to instantiate the theorems -/

/-- A well-formed wire record (the spec's §8 scenario). -/
def sampleEntry : OeisEntry where
  number := 250000
  id := some "M0692 N0256"
  data := "1,1,2,3,5,8"
  name := "Fibonacci-like"
  comment := ["a", "b"]
  reference := []
  link := ["<a>x</a>"]
  formula := ["a(n) = a(n-1) + a(n-2)"]
  «example» := []
  maple := []
  mathematica := ["Fibonacci[n]"]
  program := []
  xref := ["A000045"]
  keyword := "nonn,core"
  offset := "1,3"
  author := "N. J. A. Sloane"
  ext := []
  references := 3
  revision := 14
  time := "2024-01-01T00:00:00-04:00"
  created := "2014-01-01T00:00:00-04:00"

/-- The Sequence `sampleEntry` decodes to. -/
def sampleSeq : OeisSequence where
  number := 250000
  id := some "M0692 N0256"
  data := [1, 1, 2, 3, 5, 8]
  name := "Fibonacci-like"
  comment := "a\nb"
  reference := ""
  link := "<a>x</a>"
  formula := "a(n) = a(n-1) + a(n-2)"
  «example» := ""
  maple := ""
  mathematica := "Fibonacci[n]"
  program := ""
  xref := "A000045"
  keyword := [.nonn, .core]
  offset := "1,3"
  author := "N. J. A. Sloane"
  ext := ""
  references := 3
  revision := 14
  time := "2024-01-01T00:00:00-04:00"
  created := "2014-01-01T00:00:00-04:00"

/-- A wire record whose terms field contains the non-numeric token `x`. -/
def entryInvalid : OeisEntry :=
  { sampleEntry with data := "1,2,x,4", keyword := "nonn" }

/-- A wire record with a malformed term AND an unknown keyword: term parsing
runs first, so the invalid term wins. -/
def entryBothBad : OeisEntry :=
  { sampleEntry with data := "x", keyword := "zzz" }

/-- A wire record with well-formed terms and an unknown keyword. -/
def entryUnknownKw : OeisEntry :=
  { sampleEntry with data := "1,2", keyword := "nonn,zzz" }

/-- A well-formed wire record carrying the excluded keyword `dead`. -/
def rejectedEntry : OeisEntry :=
  { sampleEntry with keyword := "nonn,dead" }

/-! ## Helper lemmas: `collectResults` -/

theorem collectResults_map_ok {ε α β : Type} (f : β → Except ε α) (g : β → α) :
    ∀ l : List β, (∀ x ∈ l, f x = .ok (g x)) →
      collectResults (l.map f) = .ok (l.map g) := by
  intro l
  induction l with
  | nil => intro _; rfl
  | cons x t ih =>
    intro h
    rw [List.map_cons, h x (List.mem_cons_self x t), collectResults,
      ih (fun y hy => h y (List.mem_cons_of_mem x hy))]
    rfl

theorem collectResults_append_error {ε α β : Type} (f : β → Except ε α) (t : β)
    (post : List β) (err : ε) (ht : f t = .error err) :
    ∀ pre : List β, (∀ u ∈ pre, ∃ a, f u = .ok a) →
      collectResults ((pre ++ t :: post).map f) = .error err := by
  intro pre
  induction pre with
  | nil =>
    intro _
    rw [List.nil_append, List.map_cons, ht, collectResults]
  | cons u pre' ih =>
    intro h
    obtain ⟨a, ha⟩ := h u (List.mem_cons_self u pre')
    rw [List.cons_append, List.map_cons, ha, collectResults,
      ih (fun y hy => h y (List.mem_cons_of_mem u hy))]
    rfl

theorem collectResults_map_first_error {ε α β : Type} (f : β → Except ε α) (err : β → ε)
    (P : β → Prop) (hP : ∀ x, P x → f x = Except.error (err x))
    (hnP : ∀ x, ¬ P x → ∃ a, f x = Except.ok a) :
    ∀ l : List β, (∃ x ∈ l, P x) →
      ∃ x ∈ l, P x ∧ collectResults (l.map f) = Except.error (err x) := by
  intro l
  induction l with
  | nil => rintro ⟨x, hx, -⟩; exact absurd hx (List.not_mem_nil x)
  | cons y t ih =>
    intro h
    by_cases hy : P y
    · refine ⟨y, List.mem_cons_self y t, hy, ?_⟩
      rw [List.map_cons, hP y hy, collectResults]
    · obtain ⟨x, hx, hPx⟩ := h
      rcases List.mem_cons.mp hx with rfl | hx'
      · exact absurd hPx hy
      · obtain ⟨x', hx'', hPx', hcoll⟩ := ih ⟨x, hx', hPx⟩
        obtain ⟨a, ha⟩ := hnP y hy
        refine ⟨x', List.mem_cons_of_mem y hx'', hPx', ?_⟩
        rw [List.map_cons, ha, collectResults, hcoll]
        rfl

/-! ## Helper lemmas: the decoder -/

theorem fromEntry_data_error (e : OeisEntry) (d : DecodeError)
    (h : parse_data e.data = .error d) : OeisSequence.fromEntry e = .error d := by
  unfold OeisSequence.fromEntry
  rw [h]
  rfl

theorem fromEntry_keyword_error (e : OeisEntry) (l : List Int) (d : DecodeError)
    (hd : parse_data e.data = .ok l) (h : parse_keywords e.keyword = .error d) :
    OeisSequence.fromEntry e = .error d := by
  unfold OeisSequence.fromEntry
  rw [hd, h]
  rfl

theorem fromEntry_ok_elim (e : OeisEntry) (s : OeisSequence)
    (h : OeisSequence.fromEntry e = .ok s) :
    parse_data e.data = .ok s.data ∧ parse_keywords e.keyword = .ok s.keyword ∧
    s.number = e.number ∧ s.id = e.id ∧ s.name = e.name ∧
    s.comment = join_lines e.comment ∧ s.reference = join_lines e.reference ∧
    s.link = join_lines e.link ∧ s.formula = join_lines e.formula ∧
    s.example = join_lines e.example ∧ s.maple = join_lines e.maple ∧
    s.mathematica = join_lines e.mathematica ∧ s.program = join_lines e.program ∧
    s.xref = join_lines e.xref ∧ s.offset = e.offset ∧ s.author = e.author ∧
    s.ext = join_lines e.ext ∧ s.references = e.references ∧ s.revision = e.revision ∧
    s.time = e.time ∧ s.created = e.created := by
  unfold OeisSequence.fromEntry at h
  cases hd : parse_data e.data with
  | error d => rw [hd] at h; exact absurd h (by simp [Bind.bind, Except.bind])
  | ok data =>
    cases hk : parse_keywords e.keyword with
    | error d => rw [hd, hk] at h; exact absurd h (by simp [Bind.bind, Except.bind])
    | ok kws =>
      rw [hd, hk] at h
      simp only [Bind.bind, Except.bind, pure, Except.pure, Except.ok.injEq] at h
      subst h
      exact ⟨rfl, rfl, rfl, rfl, rfl, rfl, rfl, rfl, rfl, rfl, rfl, rfl, rfl, rfl,
        rfl, rfl, rfl, rfl, rfl, rfl, rfl⟩

/-! ## Helper lemmas: the keyword taxonomy -/

theorem from_str_as_str (k : Keyword) : Keyword.from_str (Keyword.as_str k) = .ok k := by
  cases k <;> rfl

theorem from_str_ok_eq (s : String) (k : Keyword)
    (h : Keyword.from_str s = .ok k) : s = Keyword.as_str k := by
  unfold Keyword.from_str at h
  by_cases c1 : s = "base"
  · rw [if_pos c1] at h; injection h with hk; subst hk; exact c1
  rw [if_neg c1] at h
  by_cases c2 : s = "bref"
  · rw [if_pos c2] at h; injection h with hk; subst hk; exact c2
  rw [if_neg c2] at h
  by_cases c3 : s = "changed"
  · rw [if_pos c3] at h; injection h with hk; subst hk; exact c3
  rw [if_neg c3] at h
  by_cases c4 : s = "cofr"
  · rw [if_pos c4] at h; injection h with hk; subst hk; exact c4
  rw [if_neg c4] at h
  by_cases c5 : s = "cons"
  · rw [if_pos c5] at h; injection h with hk; subst hk; exact c5
  rw [if_neg c5] at h
  by_cases c6 : s = "core"
  · rw [if_pos c6] at h; injection h with hk; subst hk; exact c6
  rw [if_neg c6] at h
  by_cases c7 : s = "dead"
  · rw [if_pos c7] at h; injection h with hk; subst hk; exact c7
  rw [if_neg c7] at h
  by_cases c8 : s = "dumb"
  · rw [if_pos c8] at h; injection h with hk; subst hk; exact c8
  rw [if_neg c8] at h
  by_cases c9 : s = "dupe"
  · rw [if_pos c9] at h; injection h with hk; subst hk; exact c9
  rw [if_neg c9] at h
  by_cases c10 : s = "easy"
  · rw [if_pos c10] at h; injection h with hk; subst hk; exact c10
  rw [if_neg c10] at h
  by_cases c11 : s = "eigen"
  · rw [if_pos c11] at h; injection h with hk; subst hk; exact c11
  rw [if_neg c11] at h
  by_cases c12 : s = "fini"
  · rw [if_pos c12] at h; injection h with hk; subst hk; exact c12
  rw [if_neg c12] at h
  by_cases c13 : s = "frac"
  · rw [if_pos c13] at h; injection h with hk; subst hk; exact c13
  rw [if_neg c13] at h
  by_cases c14 : s = "full"
  · rw [if_pos c14] at h; injection h with hk; subst hk; exact c14
  rw [if_neg c14] at h
  by_cases c15 : s = "hard"
  · rw [if_pos c15] at h; injection h with hk; subst hk; exact c15
  rw [if_neg c15] at h
  by_cases c16 : s = "hear"
  · rw [if_pos c16] at h; injection h with hk; subst hk; exact c16
  rw [if_neg c16] at h
  by_cases c17 : s = "less"
  · rw [if_pos c17] at h; injection h with hk; subst hk; exact c17
  rw [if_neg c17] at h
  by_cases c18 : s = "look"
  · rw [if_pos c18] at h; injection h with hk; subst hk; exact c18
  rw [if_neg c18] at h
  by_cases c19 : s = "more"
  · rw [if_pos c19] at h; injection h with hk; subst hk; exact c19
  rw [if_neg c19] at h
  by_cases c20 : s = "mult"
  · rw [if_pos c20] at h; injection h with hk; subst hk; exact c20
  rw [if_neg c20] at h
  by_cases c21 : s = "new"
  · rw [if_pos c21] at h; injection h with hk; subst hk; exact c21
  rw [if_neg c21] at h
  by_cases c22 : s = "nice"
  · rw [if_pos c22] at h; injection h with hk; subst hk; exact c22
  rw [if_neg c22] at h
  by_cases c23 : s = "nonn"
  · rw [if_pos c23] at h; injection h with hk; subst hk; exact c23
  rw [if_neg c23] at h
  by_cases c24 : s = "obsc"
  · rw [if_pos c24] at h; injection h with hk; subst hk; exact c24
  rw [if_neg c24] at h
  by_cases c25 : s = "probation"
  · rw [if_pos c25] at h; injection h with hk; subst hk; exact c25
  rw [if_neg c25] at h
  by_cases c26 : s = "sign"
  · rw [if_pos c26] at h; injection h with hk; subst hk; exact c26
  rw [if_neg c26] at h
  by_cases c27 : s = "tabf"
  · rw [if_pos c27] at h; injection h with hk; subst hk; exact c27
  rw [if_neg c27] at h
  by_cases c28 : s = "tabl"
  · rw [if_pos c28] at h; injection h with hk; subst hk; exact c28
  rw [if_neg c28] at h
  by_cases c29 : s = "uned"
  · rw [if_pos c29] at h; injection h with hk; subst hk; exact c29
  rw [if_neg c29] at h
  by_cases c30 : s = "unkn"
  · rw [if_pos c30] at h; injection h with hk; subst hk; exact c30
  rw [if_neg c30] at h
  by_cases c31 : s = "walk"
  · rw [if_pos c31] at h; injection h with hk; subst hk; exact c31
  rw [if_neg c31] at h
  by_cases c32 : s = "word"
  · rw [if_pos c32] at h; injection h with hk; subst hk; exact c32
  rw [if_neg c32] at h
  exact Except.noConfusion h

theorem from_str_error_eq (s e : String)
    (h : Keyword.from_str s = .error e) : e = s := by
  unfold Keyword.from_str at h
  by_cases c1 : s = "base"
  · rw [if_pos c1] at h; exact Except.noConfusion h
  rw [if_neg c1] at h
  by_cases c2 : s = "bref"
  · rw [if_pos c2] at h; exact Except.noConfusion h
  rw [if_neg c2] at h
  by_cases c3 : s = "changed"
  · rw [if_pos c3] at h; exact Except.noConfusion h
  rw [if_neg c3] at h
  by_cases c4 : s = "cofr"
  · rw [if_pos c4] at h; exact Except.noConfusion h
  rw [if_neg c4] at h
  by_cases c5 : s = "cons"
  · rw [if_pos c5] at h; exact Except.noConfusion h
  rw [if_neg c5] at h
  by_cases c6 : s = "core"
  · rw [if_pos c6] at h; exact Except.noConfusion h
  rw [if_neg c6] at h
  by_cases c7 : s = "dead"
  · rw [if_pos c7] at h; exact Except.noConfusion h
  rw [if_neg c7] at h
  by_cases c8 : s = "dumb"
  · rw [if_pos c8] at h; exact Except.noConfusion h
  rw [if_neg c8] at h
  by_cases c9 : s = "dupe"
  · rw [if_pos c9] at h; exact Except.noConfusion h
  rw [if_neg c9] at h
  by_cases c10 : s = "easy"
  · rw [if_pos c10] at h; exact Except.noConfusion h
  rw [if_neg c10] at h
  by_cases c11 : s = "eigen"
  · rw [if_pos c11] at h; exact Except.noConfusion h
  rw [if_neg c11] at h
  by_cases c12 : s = "fini"
  · rw [if_pos c12] at h; exact Except.noConfusion h
  rw [if_neg c12] at h
  by_cases c13 : s = "frac"
  · rw [if_pos c13] at h; exact Except.noConfusion h
  rw [if_neg c13] at h
  by_cases c14 : s = "full"
  · rw [if_pos c14] at h; exact Except.noConfusion h
  rw [if_neg c14] at h
  by_cases c15 : s = "hard"
  · rw [if_pos c15] at h; exact Except.noConfusion h
  rw [if_neg c15] at h
  by_cases c16 : s = "hear"
  · rw [if_pos c16] at h; exact Except.noConfusion h
  rw [if_neg c16] at h
  by_cases c17 : s = "less"
  · rw [if_pos c17] at h; exact Except.noConfusion h
  rw [if_neg c17] at h
  by_cases c18 : s = "look"
  · rw [if_pos c18] at h; exact Except.noConfusion h
  rw [if_neg c18] at h
  by_cases c19 : s = "more"
  · rw [if_pos c19] at h; exact Except.noConfusion h
  rw [if_neg c19] at h
  by_cases c20 : s = "mult"
  · rw [if_pos c20] at h; exact Except.noConfusion h
  rw [if_neg c20] at h
  by_cases c21 : s = "new"
  · rw [if_pos c21] at h; exact Except.noConfusion h
  rw [if_neg c21] at h
  by_cases c22 : s = "nice"
  · rw [if_pos c22] at h; exact Except.noConfusion h
  rw [if_neg c22] at h
  by_cases c23 : s = "nonn"
  · rw [if_pos c23] at h; exact Except.noConfusion h
  rw [if_neg c23] at h
  by_cases c24 : s = "obsc"
  · rw [if_pos c24] at h; exact Except.noConfusion h
  rw [if_neg c24] at h
  by_cases c25 : s = "probation"
  · rw [if_pos c25] at h; exact Except.noConfusion h
  rw [if_neg c25] at h
  by_cases c26 : s = "sign"
  · rw [if_pos c26] at h; exact Except.noConfusion h
  rw [if_neg c26] at h
  by_cases c27 : s = "tabf"
  · rw [if_pos c27] at h; exact Except.noConfusion h
  rw [if_neg c27] at h
  by_cases c28 : s = "tabl"
  · rw [if_pos c28] at h; exact Except.noConfusion h
  rw [if_neg c28] at h
  by_cases c29 : s = "uned"
  · rw [if_pos c29] at h; exact Except.noConfusion h
  rw [if_neg c29] at h
  by_cases c30 : s = "unkn"
  · rw [if_pos c30] at h; exact Except.noConfusion h
  rw [if_neg c30] at h
  by_cases c31 : s = "walk"
  · rw [if_pos c31] at h; exact Except.noConfusion h
  rw [if_neg c31] at h
  by_cases c32 : s = "word"
  · rw [if_pos c32] at h; exact Except.noConfusion h
  rw [if_neg c32] at h
  injection h with hk; exact hk.symm

theorem from_str_total (s : String) :
    (∃ k, Keyword.from_str s = .ok k) ∨ Keyword.from_str s = .error s := by
  cases h : Keyword.from_str s with
  | ok k => exact Or.inl ⟨k, rfl⟩
  | error e => exact Or.inr (from_str_error_eq s e h ▸ rfl)

/-! ## Helper lemmas: the rejection test -/

theorem isRejected_false_iff (s : OeisSequence) :
    isRejected s = false ↔ ∀ k ∈ s.keyword, k ∉ REJECTED_KEYWORDS := by
  simp [isRejected, List.any_eq_false]

/-! ## Helper lemmas: decimal renderings -/

theorem digitChar_isDigit (m : Nat) (h : m < 10) : (Nat.digitChar m).isDigit = true := by
  interval_cases m <;> decide

theorem digitVal_digitChar (m : Nat) (h : m < 10) : digitVal (Nat.digitChar m) = m := by
  interval_cases m <;> decide

theorem isDigit_ne_dash (c : Char) (h : c.isDigit = true) : c ≠ '-' := by
  intro he; subst he; exact absurd h (by decide)

theorem isDigit_ne_plus (c : Char) (h : c.isDigit = true) : c ≠ '+' := by
  intro he; subst he; exact absurd h (by decide)

theorem isDigit_ne_comma (c : Char) (h : c.isDigit = true) : c ≠ ',' := by
  intro he; subst he; exact absurd h (by decide)

theorem natDigitsRev_ne_nil (n : Nat) : natDigitsRev n ≠ [] := by
  rw [natDigitsRev]
  split <;> simp

theorem natDigitsRev_digits (n : Nat) : ∀ c ∈ natDigitsRev n, c.isDigit = true := by
  induction n using Nat.strong_induction_on with
  | _ n ih =>
    rw [natDigitsRev]
    split
    · next h =>
      intro c hc
      rw [List.mem_singleton] at hc
      subst hc
      exact digitChar_isDigit n h
    · next h =>
      intro c hc
      rcases List.mem_cons.mp hc with rfl | hc'
      · exact digitChar_isDigit _ (Nat.mod_lt _ (by omega))
      · exact ih (n / 10) (Nat.div_lt_self (by omega) (by omega)) c hc'

theorem digitsVal_append_singleton (cs : List Char) (c : Char) :
    digitsVal (cs ++ [c]) = 10 * digitsVal cs + digitVal c := by
  simp only [digitsVal, List.foldl_append, List.foldl_cons, List.foldl_nil]
  omega

theorem digitsVal_reverse (cs : List Char) : digitsVal cs.reverse = valRevDigits cs := by
  induction cs with
  | nil => rfl
  | cons c t ih =>
    rw [List.reverse_cons, digitsVal_append_singleton, ih, valRevDigits]
    omega

theorem valRevDigits_natDigitsRev (n : Nat) : valRevDigits (natDigitsRev n) = n := by
  induction n using Nat.strong_induction_on with
  | _ n ih =>
    rw [natDigitsRev]
    split
    · next h =>
      rw [valRevDigits, valRevDigits, digitVal_digitChar n h]
      omega
    · next h =>
      rw [valRevDigits, ih (n / 10) (Nat.div_lt_self (by omega) (by omega)),
        digitVal_digitChar _ (Nat.mod_lt _ (by omega))]
      omega

theorem natDigits_ne_nil (n : Nat) : natDigits n ≠ [] := by
  simp [natDigits, natDigitsRev_ne_nil]

theorem natDigits_digits (n : Nat) : ∀ c ∈ natDigits n, c.isDigit = true := by
  intro c hc
  exact natDigitsRev_digits n c (List.mem_reverse.mp hc)

theorem digitsVal_natDigits (n : Nat) : digitsVal (natDigits n) = n := by
  rw [natDigits, digitsVal_reverse, valRevDigits_natDigitsRev]

theorem parseNatDigits_natDigits (n : Nat) : parseNatDigits (natDigits n) = some n := by
  rw [parseNatDigits, if_neg (by simp [List.isEmpty_iff, natDigits_ne_nil]),
    if_pos (List.all_eq_true.mpr (natDigits_digits n)), digitsVal_natDigits]

theorem intToString_data_ne_nil (n : Int) : (intToString n).data ≠ [] := by
  rw [intToString]
  split <;> simp [natDigits_ne_nil]

theorem intToString_noComma (n : Int) : ∀ c ∈ (intToString n).data, c ≠ ',' := by
  rw [intToString]
  split
  · intro c hc
    rcases List.mem_cons.mp hc with rfl | hc'
    · decide
    · exact isDigit_ne_comma c (natDigits_digits _ c hc')
  · intro c hc
    exact isDigit_ne_comma c (natDigits_digits _ c hc)

theorem parseBigIntChars_intToString (n : Int) :
    parseBigIntChars (intToString n).data = some n := by
  by_cases hneg : n < 0
  · rw [intToString, if_pos hneg]
    show parseBigIntChars ('-' :: natDigits n.natAbs) = some n
    rw [parseBigIntChars, if_pos rfl, parseNatDigits_natDigits]
    exact congrArg some (show -((n.natAbs : Int)) = n by omega)
  · rw [intToString, if_neg hneg]
    obtain ⟨c, cs, hcons⟩ := List.exists_cons_of_ne_nil (natDigits_ne_nil n.toNat)
    have hc : c.isDigit = true := natDigits_digits n.toNat c (hcons ▸ List.mem_cons_self c cs)
    show parseBigIntChars (natDigits n.toNat) = some n
    rw [hcons, parseBigIntChars, if_neg (isDigit_ne_dash c hc),
      if_neg (isDigit_ne_plus c hc), ← hcons, parseNatDigits_natDigits]
    exact congrArg some (show ((n.toNat : Int)) = n by omega)

/-! ## Helper lemmas: comma splitting and joining -/

theorem splitChars_noComma (p : List Char) (hp : ∀ c ∈ p, c ≠ ',') :
    splitChars p = [p] := by
  induction p with
  | nil => rfl
  | cons c t ih =>
    rw [splitChars, if_neg (hp c (List.mem_cons_self c t)),
      ih (fun x hx => hp x (List.mem_cons_of_mem c hx))]

theorem splitChars_append_comma (p : List Char) (hp : ∀ c ∈ p, c ≠ ',') (cs : List Char) :
    splitChars (p ++ ',' :: cs) = p :: splitChars cs := by
  induction p with
  | nil => rw [List.nil_append, splitChars, if_pos rfl]
  | cons c t ih =>
    rw [List.cons_append, splitChars, if_neg (hp c (List.mem_cons_self c t)),
      ih (fun x hx => hp x (List.mem_cons_of_mem c hx))]

theorem splitChars_joinComma (parts : List (List Char)) (hne : parts ≠ [])
    (hc : ∀ p ∈ parts, ∀ c ∈ p, c ≠ ',') :
    splitChars (joinComma parts) = parts := by
  induction parts with
  | nil => exact absurd rfl hne
  | cons p ps ih =>
    cases ps with
    | nil => exact splitChars_noComma p (hc p (List.mem_cons_self p []))
    | cons q qs =>
      show splitChars (p ++ ',' :: joinComma (q :: qs)) = p :: q :: qs
      rw [splitChars_append_comma p (hc p (List.mem_cons_self p (q :: qs))),
        ih (by simp) (fun x hx => hc x (List.mem_cons_of_mem p hx))]

theorem joinComma_cons_flatten (ds : List (List Char)) :
    ∀ d, joinComma (d :: ds) = d ++ (ds.map (fun x => ',' :: x)).flatten := by
  induction ds with
  | nil => intro d; simp [joinComma]
  | cons x r ih =>
    intro d
    show d ++ ',' :: joinComma (x :: r) = _
    rw [ih x]
    simp

theorem intercalate_go_data (sep : String) :
    ∀ (as : List String) (acc : String),
      (String.intercalate.go acc sep as).data
        = acc.data ++ (as.map (fun a => sep.data ++ a.data)).flatten := by
  intro as
  induction as with
  | nil => intro acc; simp [String.intercalate.go]
  | cons a t ih =>
    intro acc
    rw [String.intercalate.go, ih]
    simp [String.data_append]

theorem intercalate_comma_data (parts : List String) :
    (String.intercalate "," parts).data = joinComma (parts.map String.data) := by
  cases parts with
  | nil => rfl
  | cons a t =>
    rw [String.intercalate, intercalate_go_data, List.map_cons,
      joinComma_cons_flatten, List.map_map]
    rfl

theorem collectResults_comp_ok {ε α β : Type} (f : β → Except ε α) (enc : α → β)
    (h : ∀ x, f (enc x) = .ok x) :
    ∀ l : List α, collectResults ((l.map enc).map f) = .ok l := by
  intro l
  induction l with
  | nil => rfl
  | cons x t ih =>
    rw [List.map_cons, List.map_cons, h x, collectResults, ih]
    rfl

/-! ## Helper lemmas: zero padding -/

theorem natDigitsRev_length_le (k : Nat) :
    ∀ n, 1 ≤ k → n < 10 ^ k → (natDigitsRev n).length ≤ k := by
  induction k with
  | zero => intro n h _; omega
  | succ k ih =>
    intro n _ hn
    rw [natDigitsRev]
    split
    · simp
    · next h10 =>
      have hk : 1 ≤ k := by
        rcases Nat.eq_zero_or_pos k with rfl | hp
        · rw [pow_one] at hn; omega
        · exact hp
      have hdiv : n / 10 < 10 ^ k := by
        rw [pow_succ] at hn
        omega
      have := ih (n / 10) hk hdiv
      simp only [List.length_cons]
      omega

theorem pad6_ne_natToString (n : Nat) (h : n < 100000) : pad6 n ≠ natToString n := by
  intro he
  have hpow : (10 : Nat) ^ 5 = 100000 := by norm_num
  have hlen : (natDigits n).length ≤ 5 := by
    have := natDigitsRev_length_le 5 n (by omega) (by omega)
    simpa [natDigits] using this
  have hdata : List.replicate (6 - (natDigits n).length) '0' ++ natDigits n = natDigits n :=
    congrArg String.data he
  have hl := congrArg List.length hdata
  simp only [List.length_append, List.length_replicate] at hl
  omega

/-! ## Shared concrete evaluation -/

theorem sample_decodes : OeisSequence.fromEntry sampleEntry = .ok sampleSeq := by rfl

/-! ## Claim theorems -/

/-- C1: a raw wire record whose comma-delimited terms field contains a
segment (after dropping empty segments) that does not parse as an
arbitrary-precision signed integer decodes to the fatal failure
`DecodeError.invalidTerm` carrying such a segment (the source aborts inside
`parse_data`); the equality with `.error` means no partial Sequence is
produced and the segment is neither skipped nor coerced. -/
theorem invalid_term_fatal (e : OeisEntry)
    (h : ∃ t ∈ segments e.data, parseBigIntChars t = none) :
    ∃ t ∈ segments e.data, parseBigIntChars t = none ∧
      OeisSequence.fromEntry e = .error (DecodeError.invalidTerm (String.mk t)) := by
  obtain ⟨t, ht, hbad, hcoll⟩ :=
    collectResults_map_first_error
      (fun t => match parseBigIntChars t with
        | some n => .ok n
        | none => .error (DecodeError.invalidTerm (String.mk t)))
      (fun t => DecodeError.invalidTerm (String.mk t))
      (fun t => parseBigIntChars t = none)
      (fun t hp => by simp only [hp])
      (fun t hp => by
        cases hparse : parseBigIntChars t with
        | none => exact absurd hparse hp
        | some n => exact ⟨n, by simp only [hparse]⟩)
      (segments e.data) h
  exact ⟨t, ht, hbad, fromEntry_data_error e _ hcoll⟩

/-- C1 witness: the record with terms field `"1,2,x,4"` decodes to
`invalidTerm "x"`. -/
theorem invalid_term_fatal_witness :
    OeisSequence.fromEntry entryInvalid = Except.error (DecodeError.invalidTerm "x") := by
  obtain ⟨u, hu, hbad, herr⟩ :=
    invalid_term_fatal entryInvalid ⟨"x".data, by decide, by decide⟩
  have hseg : segments entryInvalid.data = [['1'], ['2'], ['x'], ['4']] := by decide
  rw [hseg] at hu
  fin_cases hu <;>
    first
      | exact herr
      | exact absurd hbad (by decide)

/-- C2 counterexample: `entryBothBad` has keyword field `"zzz"`, whose only
segment is not a canonical keyword, yet decoding fails with
`invalidTerm "x"` (term parsing runs first in the source's struct
expression), not with `unknownKeyword "zzz"`: the claim's conclusion is
false for this record. -/
theorem unknown_keyword_counterexample :
    Keyword.from_str "zzz" = Except.error "zzz" ∧
    "zzz".data ∈ segments entryBothBad.keyword ∧
    OeisSequence.fromEntry entryBothBad = Except.error (DecodeError.invalidTerm "x") :=
  ⟨rfl, by decide, by rfl⟩

/-- C2 (amended): for a record whose terms field parses successfully, a
keyword-field segment (after dropping empty segments) that is not a
canonical keyword string makes decoding fail with
`DecodeError.unknownKeyword` carrying such a segment; it is never silently
dropped and no Sequence is produced. -/
theorem unknown_keyword_fatal (e : OeisEntry) (l : List Int)
    (hdata : parse_data e.data = .ok l)
    (h : ∃ t ∈ segments e.keyword, Keyword.from_str (String.mk t) = .error (String.mk t)) :
    ∃ t ∈ segments e.keyword, Keyword.from_str (String.mk t) = .error (String.mk t) ∧
      OeisSequence.fromEntry e = .error (DecodeError.unknownKeyword (String.mk t)) := by
  obtain ⟨t, ht, hbad, hcoll⟩ :=
    collectResults_map_first_error
      (fun t => match Keyword.from_str (String.mk t) with
        | .ok k => .ok k
        | .error msg => .error (DecodeError.unknownKeyword msg))
      (fun t => DecodeError.unknownKeyword (String.mk t))
      (fun t => Keyword.from_str (String.mk t) = .error (String.mk t))
      (fun t hp => by simp only [hp])
      (fun t hp => by
        cases hparse : Keyword.from_str (String.mk t) with
        | ok k => exact ⟨k, by simp only [hparse]⟩
        | error msg =>
          have hmsg := from_str_error_eq _ _ hparse
          subst hmsg
          exact absurd hparse hp)
      (segments e.keyword) h
  exact ⟨t, ht, hbad, fromEntry_keyword_error e l _ hdata hcoll⟩

/-- C2 witness: the record with terms `"1,2"` and keyword field
`"nonn,zzz"` decodes to `unknownKeyword "zzz"`. -/
theorem unknown_keyword_fatal_witness :
    OeisSequence.fromEntry entryUnknownKw = Except.error (DecodeError.unknownKeyword "zzz") := by
  obtain ⟨u, hu, hbad, herr⟩ :=
    unknown_keyword_fatal entryUnknownKw [1, 2] (by rfl) ⟨"zzz".data, by decide, by rfl⟩
  have hseg : segments entryUnknownKw.keyword = [['n', 'o', 'n', 'n'], ['z', 'z', 'z']] := by
    decide
  rw [hseg] at hu
  fin_cases hu <;>
    first
      | exact herr
      | exact absurd hbad (by decide)

/-- C7: for every keyword of the closed enumeration, parsing its canonical
string form yields the keyword back, and the string-to-keyword mapping is
exact-match over the canonical set: a string accepted by `from_str` is
exactly the canonical form of the keyword it maps to (so there is no case
folding or trimming, and the mapping is total and bijective over the
canonical set). -/
theorem keyword_string_mapping_exact :
    (∀ k : Keyword, Keyword.from_str (Keyword.as_str k) = .ok k) ∧
    (∀ (s : String) (k : Keyword), Keyword.from_str s = .ok k → s = Keyword.as_str k) :=
  ⟨from_str_as_str, from_str_ok_eq⟩

/-- C7 witness: the round trip at `probation` and exact-match at `"core"`. -/
theorem keyword_string_mapping_exact_witness :
    Keyword.from_str (Keyword.as_str Keyword.probation) = .ok Keyword.probation ∧
    "core" = Keyword.as_str Keyword.core :=
  ⟨keyword_string_mapping_exact.1 Keyword.probation,
   keyword_string_mapping_exact.2 "core" Keyword.core rfl⟩

/-- C8: decoding joins every multi-line prose field (comment, reference,
link, formula, example, the source-snippet sections maple / mathematica /
program, xref, ext) with a newline in original order, and an empty list of
lines yields the empty string rather than an error. -/
theorem prose_fields_newline_joined (e : OeisEntry) (s : OeisSequence)
    (h : OeisSequence.fromEntry e = .ok s) :
    (s.comment = join_lines e.comment ∧ s.reference = join_lines e.reference ∧
     s.link = join_lines e.link ∧ s.formula = join_lines e.formula ∧
     s.example = join_lines e.example ∧ s.maple = join_lines e.maple ∧
     s.mathematica = join_lines e.mathematica ∧ s.program = join_lines e.program ∧
     s.xref = join_lines e.xref ∧ s.ext = join_lines e.ext) ∧
    join_lines [] = "" ∧ join_lines ["a", "b"] = "a\nb" := by
  obtain ⟨-, -, -, -, -, h1, h2, h3, h4, h5, h6, h7, h8, h9, -, -, h10, -, -, -, -⟩ :=
    fromEntry_ok_elim e s h
  exact ⟨⟨h1, h2, h3, h4, h5, h6, h7, h8, h9, h10⟩, rfl, rfl⟩

/-- C8 witness: the joined prose fields of the decoded sample record
(`comment = ["a", "b"]` becomes `"a\nb"`). -/
theorem prose_fields_newline_joined_witness :
    (sampleSeq.comment = join_lines sampleEntry.comment ∧
     sampleSeq.reference = join_lines sampleEntry.reference ∧
     sampleSeq.link = join_lines sampleEntry.link ∧
     sampleSeq.formula = join_lines sampleEntry.formula ∧
     sampleSeq.example = join_lines sampleEntry.example ∧
     sampleSeq.maple = join_lines sampleEntry.maple ∧
     sampleSeq.mathematica = join_lines sampleEntry.mathematica ∧
     sampleSeq.program = join_lines sampleEntry.program ∧
     sampleSeq.xref = join_lines sampleEntry.xref ∧
     sampleSeq.ext = join_lines sampleEntry.ext) ∧
    join_lines [] = "" ∧ join_lines ["a", "b"] = "a\nb" :=
  prose_fields_newline_joined sampleEntry sampleSeq sample_decodes

/-- C9: decoding copies every field other than the terms string, the keyword
string and the prose lists verbatim: numeric identifier, optional legacy id
(exact presence/absence and value), name, offset, author, reference count,
revision and both timestamps. -/
theorem passthrough_fields (e : OeisEntry) (s : OeisSequence)
    (h : OeisSequence.fromEntry e = .ok s) :
    s.number = e.number ∧ s.id = e.id ∧ s.name = e.name ∧ s.offset = e.offset ∧
    s.author = e.author ∧ s.references = e.references ∧ s.revision = e.revision ∧
    s.time = e.time ∧ s.created = e.created := by
  obtain ⟨-, -, h1, h2, h3, -, -, -, -, -, -, -, -, -, h4, h5, -, h6, h7, h8, h9⟩ :=
    fromEntry_ok_elim e s h
  exact ⟨h1, h2, h3, h4, h5, h6, h7, h8, h9⟩

/-- C9 witness: the pass-through fields of the decoded sample record. -/
theorem passthrough_fields_witness :
    sampleSeq.number = sampleEntry.number ∧ sampleSeq.id = sampleEntry.id ∧
    sampleSeq.name = sampleEntry.name ∧ sampleSeq.offset = sampleEntry.offset ∧
    sampleSeq.author = sampleEntry.author ∧ sampleSeq.references = sampleEntry.references ∧
    sampleSeq.revision = sampleEntry.revision ∧ sampleSeq.time = sampleEntry.time ∧
    sampleSeq.created = sampleEntry.created :=
  passthrough_fields sampleEntry sampleSeq sample_decodes

/-- C3: a Sequence accepted by the `fetch_random` sampling loop has a
keyword set disjoint from the exclusion set `REJECTED_KEYWORDS`
(`{dead, dumb, dupe, less, obsc, probation, uned}`), and a successfully
fetched record whose keyword set intersects the exclusion set is always
discarded and resampled, never returned. -/
theorem fetch_random_never_excluded :
    (∀ (draws : List (Nat × LookupResult)) (seq : OeisSequence),
        fetch_random draws = .accepted seq → ∀ k ∈ seq.keyword, k ∉ REJECTED_KEYWORDS) ∧
    (∀ (id : Nat) (r : LookupResult) (rest : List (Nat × LookupResult)) (seq : OeisSequence),
        fetch id r = .ok seq → isRejected seq = true →
        fetch_random ((id, r) :: rest) = fetch_random rest) := by
  constructor
  · intro draws
    induction draws with
    | nil => intro seq h; exact absurd h (by simp [fetch_random])
    | cons d tl ih =>
      intro seq h
      rw [fetch_random] at h
      rcases hf : fetch d.1 d.2 with s | e | d'
      · simp only [hf] at h
        by_cases hr : isRejected s
        · rw [if_pos hr] at h
          exact ih seq h
        · rw [if_neg hr] at h
          injection h with h2
          have hfalse : isRejected seq = false := by
            rw [← h2]
            revert hr
            cases isRejected s <;> simp
          exact (isRejected_false_iff seq).mp hfalse
      · rcases e with msg | msg | m
        · simp only [hf] at h; exact absurd h (by simp)
        · simp only [hf] at h; exact absurd h (by simp)
        · simp only [hf] at h; exact ih seq h
      · simp only [hf] at h; exact absurd h (by simp)
  · intro id r rest seq hok hrej
    rw [fetch_random, show fetch (id, r).1 (id, r).2 = FetchOutcome.ok seq from hok]
    show (if isRejected seq then fetch_random rest else RandomOutcome.accepted seq)
      = fetch_random rest
    rw [if_pos hrej]

/-- C3 witness: a draw stream whose first lookup carries the excluded
keyword `dead` is resampled and the accepted Sequence's keywords avoid the
exclusion set. -/
theorem fetch_random_never_excluded_witness :
    Keyword.nonn ∉ REJECTED_KEYWORDS ∧
    fetch_random [(1, LookupResult.records [rejectedEntry]),
      (250000, LookupResult.records [sampleEntry])] = .accepted sampleSeq := by
  have h : fetch_random [(1, LookupResult.records [rejectedEntry]),
      (250000, LookupResult.records [sampleEntry])] = .accepted sampleSeq := by decide
  exact ⟨fetch_random_never_excluded.1 _ sampleSeq h Keyword.nonn (by decide), h⟩

/-- C4: joining any list of arbitrary-precision integers' decimal renderings
with `,` and decoding the result with the decoder's terms parser
(`parse_data`) reproduces the original list exactly, including the empty
list and values beyond the 64-bit range. -/
theorem terms_roundtrip (l : List Int) :
    parse_data (String.intercalate "," (l.map intToString)) = .ok l := by
  cases l with
  | nil => rfl
  | cons n t =>
    have hdata : (String.intercalate "," ((n :: t).map intToString)).data
        = joinComma ((n :: t).map (fun m => (intToString m).data)) := by
      rw [intercalate_comma_data, List.map_map]
      rfl
    unfold parse_data segments
    rw [hdata,
      splitChars_joinComma ((n :: t).map fun m => (intToString m).data) (by simp)
        (fun p hp => by
          obtain ⟨m, -, rfl⟩ := List.mem_map.mp hp
          exact intToString_noComma m),
      List.filter_eq_self.mpr
        (fun p hp => by
          obtain ⟨m, -, rfl⟩ := List.mem_map.mp hp
          simpa [List.isEmpty_iff] using intToString_data_ne_nil m)]
    exact collectResults_comp_ok _ _
      (fun x => by simp only [parseBigIntChars_intToString]) (n :: t)

/-- C5: in the sampling loop a `NotFound` fetch result causes a redraw
(the loop on the remaining draws) and is never the loop's fatal outcome,
while any other fetch error is fatal immediately, whatever draws remain. -/
theorem fetch_random_retry_policy :
    (∀ (id : Nat) (r : LookupResult) (rest : List (Nat × LookupResult)),
        (∃ m, fetch id r = .err (.notFound m)) →
        fetch_random ((id, r) :: rest) = fetch_random rest) ∧
    (∀ (id : Nat) (r : LookupResult) (rest : List (Nat × LookupResult)) (e : FetchError),
        fetch id r = .err e → (∀ m, e ≠ .notFound m) →
        fetch_random ((id, r) :: rest) = .fatal e) ∧
    (∀ (draws : List (Nat × LookupResult)) (m : Nat),
        fetch_random draws ≠ .fatal (.notFound m)) := by
  refine ⟨?_, ?_, ?_⟩
  · rintro id r rest ⟨m, hm⟩
    rw [fetch_random,
      show fetch (id, r).1 (id, r).2 = FetchOutcome.err (FetchError.notFound m) from hm]
  · intro id r rest e he hne
    rw [fetch_random, show fetch (id, r).1 (id, r).2 = FetchOutcome.err e from he]
    rcases e with msg | msg | m
    · rfl
    · rfl
    · exact absurd rfl (hne m)
  · intro draws
    induction draws with
    | nil => intro m h; exact absurd h (by simp [fetch_random])
    | cons d tl ih =>
      intro m h
      rw [fetch_random] at h
      rcases hf : fetch d.1 d.2 with s | e | d'
      · simp only [hf] at h
        by_cases hr : isRejected s
        · rw [if_pos hr] at h; exact ih m h
        · rw [if_neg hr] at h; exact absurd h (by simp)
      · rcases e with msg | msg | mm
        · simp only [hf] at h; exact absurd h (by simp)
        · simp only [hf] at h; exact absurd h (by simp)
        · simp only [hf] at h; exact ih m h
      · simp only [hf] at h; exact absurd h (by simp)

/-- C5 witness: `NotFound` on the first draw continues with the rest, a
transport error is fatal at once even with more draws pending, and the loop
never terminates with a `notFound` as its fatal outcome. -/
theorem fetch_random_retry_policy_witness :
    fetch_random [(5, LookupResult.records []), (6, LookupResult.transportError "boom")]
      = fetch_random [(6, LookupResult.transportError "boom")] ∧
    fetch_random [(6, LookupResult.transportError "boom"),
      (250000, LookupResult.records [sampleEntry])] = .fatal (.http "boom") ∧
    fetch_random [] ≠ .fatal (.notFound 5) :=
  ⟨fetch_random_retry_policy.1 5 _ _ ⟨5, rfl⟩,
   fetch_random_retry_policy.2.1 6 _ _ (.http "boom") rfl (fun _ hm => FetchError.noConfusion hm),
   fetch_random_retry_policy.2.2 [] 5⟩

/-- C6: `fetch` on a well-formed empty record list fails with
`FetchError.notFound` carrying the identifier (not an http/parse error),
and on a non-empty list decodes and returns exactly the first element,
independent of the remaining elements. -/
theorem fetch_by_id_spec (id : Nat) :
    fetch id (LookupResult.records []) = .err (.notFound id) ∧
    (∀ (e : OeisEntry) (rest : List OeisEntry) (s : OeisSequence),
        OeisSequence.fromEntry e = .ok s →
        fetch id (LookupResult.records (e :: rest)) = .ok s) ∧
    (∀ (e : OeisEntry) (rest : List OeisEntry),
        fetch id (LookupResult.records (e :: rest)) = fetch id (LookupResult.records [e])) := by
  refine ⟨rfl, ?_, fun e rest => rfl⟩
  intro e rest s h
  show (match OeisSequence.fromEntry e with
        | .ok s => FetchOutcome.ok s
        | .error d => FetchOutcome.decodeAbort d) = .ok s
  rw [h]

/-- C6 witness: an empty result list for identifier 250000 is `notFound
250000`, and a singleton list decodes to its first element. -/
theorem fetch_by_id_spec_witness :
    fetch 250000 (LookupResult.records []) = .err (.notFound 250000) ∧
    fetch 250000 (LookupResult.records [sampleEntry]) = .ok sampleSeq :=
  ⟨(fetch_by_id_spec 250000).1,
   (fetch_by_id_spec 250000).2.1 sampleEntry [] sampleSeq sample_decodes⟩

/-- C10: the formatted status text is exactly the zero-padded six-digit
display label line, the name, the terms' decimal renderings joined by a
comma and space, and the URL built from the identifier WITHOUT zero
padding; consequently for identifiers below 100000 the URL's label differs
from the canonical six-digit display label. -/
theorem format_status_shape (seq : OeisSequence) :
    format_status seq =
      "OEIS sequence A" ++ pad6 seq.number ++ "\n" ++ seq.name ++ "\n\n"
        ++ String.intercalate ", " (seq.data.map intToString)
        ++ "\n\nhttps://oeis.org/A" ++ natToString seq.number ∧
    (seq.number < 100000 → pad6 seq.number ≠ natToString seq.number) :=
  ⟨rfl, fun h => pad6_ne_natToString seq.number h⟩

/-- C10 witness: at identifier 45 the display label `000045` differs from
the URL label `45`. -/
theorem format_status_shape_witness :
    (45 : Nat) < 100000 ∧ pad6 45 ≠ natToString 45 :=
  ⟨by omega, (format_status_shape { sampleSeq with number := 45 }).2 (by decide)⟩

end OeisBot
